import Mathlib

/-!
Shallow embedding of the realtime chat backend (quicktalk_be).

Part 1: the in-memory presence registry and socket event handlers of
`server.js`; Part 2: the persisted chat store and the group-mutation
controllers of `controllers/chatController.js`.

Identities: user ids, chat ids and socket ids are modelled as `Nat`
(in the source they are opaque Mongo ObjectId / socket.io id strings;
only equality on them is ever used).
-/

namespace QuickTalk

abbrev UserId := Nat
abbrev ChatId := Nat
abbrev SocketId := Nat

/-! ## Presence registry (server.js)

`let onlineUsers = {}` maps a user id to a SINGLE socket id
(`onlineUsers[userData._id] = socket.id`).  A JS object is modelled as
an association list in key-insertion order: assigning to an existing
key overwrites its value in place, assigning to a fresh key appends,
`delete` removes the key, and `Object.keys` is the list of keys in
insertion order. -/

abbrev Presence := List (UserId × SocketId)

/-- JS `onlineUsers[u] = s`: overwrite in place if the key exists,
otherwise append. -/
def presSet (st : Presence) (u : UserId) (s : SocketId) : Presence :=
  if st.any (fun p => p.1 == u) then
    st.map (fun p => if p.1 == u then (u, s) else p)
  else st ++ [(u, s)]

/-- JS `onlineUsers[u]` (property read): the value stored at key `u`. -/
def presLookup (st : Presence) (u : UserId) : Option SocketId :=
  (st.find? (fun p => p.1 == u)).map (fun p => p.2)

/-- Embeds `getUserIdFromSocketId` (server.js line 41): the FIRST key of
`onlineUsers` whose value is the given socket id. -/
def firstUserOf (st : Presence) (s : SocketId) : Option UserId :=
  (st.find? (fun p => p.2 == s)).map (fun p => p.1)

/-- JS `delete onlineUsers[u]`. -/
def presDelete (st : Presence) (u : UserId) : Presence :=
  st.filter (fun p => p.1 != u)

/-- Embeds `Object.keys(onlineUsers)`: keys in insertion order. -/
def presKeys (st : Presence) : List UserId := st.map (fun p => p.1)

/-- Spec-level `resolve(userId)`: the set of connections the registry
currently associates with the identity (for this registry, at most
one, namely the stored socket id). -/
def resolveSet (st : Presence) (u : UserId) : List SocketId :=
  (presLookup st u).toList

/-- Spec-level `isOnline(userId)`: embedding of the truthiness check
`onlineUsers[u]` used by the relay handlers. -/
def isOnline (st : Presence) (u : UserId) : Bool :=
  (presLookup st u).isSome

/-- Embeds `socket.on("setup", (userData) => ...)` payload: `userData._id`
may be absent (`!userData._id` guard). -/
structure UserData where
  uid : Option UserId
  deriving Repr, DecidableEq

/-- Observable side effects of the server.js socket handlers. -/
inductive SockEffect where
  /-- Embeds `socket.join(room)` -/
  | joinRoom (room : Nat)
  /-- Embeds `io.emit("get online users", keys)` to every connection -/
  | emitAllUsers (userList : List UserId)
  /-- Embeds `socket.emit(event)` back to the handling connection -/
  | emitSelf (event : String)
  /-- Embeds `io.to(socketId).emit(event, { ..., from })` -/
  | emitCall (sock : SocketId) (event : String) (fromId : Option UserId)
  deriving Repr, DecidableEq

/-- Embeds `socket.on("setup", ...)` (server.js lines 104-120): on a missing
or id-less payload, return without any effect; otherwise join the
personal room, store `onlineUsers[_id] = socket.id`, broadcast the
online-id list to everyone and ack `connected` to the caller. -/
def setupHandler (st : Presence) (sock : SocketId) (payload : Option UserData) :
    Presence × List SockEffect :=
  match payload with
  | none => (st, [])
  | some ud =>
    match ud.uid with
    | none => (st, [])
    | some u =>
      let st1 := presSet st u sock
      (st1, [.joinRoom u, .emitAllUsers (presKeys st1), .emitSelf "connected"])

/-- Embeds `socket.on("disconnect", ...)` (server.js lines 205-223): look up
the first identity mapped to this socket, delete that single entry and
broadcast the updated online list; if no identity maps to the socket,
do nothing. -/
def disconnectHandler (st : Presence) (sock : SocketId) :
    Presence × List SockEffect :=
  match firstUserOf st sock with
  | none => (st, [])
  | some u =>
    let st1 := presDelete st u
    (st1, [.emitAllUsers (presKeys st1)])

/-! ## Call-signaling relay handlers (server.js lines 157-201)

Each handler resolves the target identity through `onlineUsers`; if a
socket is stored it emits exactly one event to it, otherwise it does
nothing (no event to the sender either -- the fallback emit in the
source is commented out).  `senderId` models `socket.userData?._id`. -/

/-- Embeds `socket.on("call-user", ...)`: forwards `{signal, from, name,
callType}` where `from` comes from the inbound payload. -/
def callUserHandler (st : Presence) (userToCall : UserId) (fromId : UserId) :
    List SockEffect :=
  match presLookup st userToCall with
  | some sid => [.emitCall sid "call-incoming" (some fromId)]
  | none => []

/-- Embeds `socket.on("call-accepted", ...)`: forwards with
`from: socket.userData?._id`. -/
def callAcceptedHandler (st : Presence) (senderId : Option UserId) (toId : UserId) :
    List SockEffect :=
  match presLookup st toId with
  | some sid => [.emitCall sid "call-accepted" senderId]
  | none => []

/-- Embeds `socket.on("signal", ...)`. -/
def signalHandler (st : Presence) (senderId : Option UserId) (toId : UserId) :
    List SockEffect :=
  match presLookup st toId with
  | some sid => [.emitCall sid "signal" senderId]
  | none => []

/-- Embeds `socket.on("call-ended", ...)`. -/
def callEndedHandler (st : Presence) (senderId : Option UserId) (toId : UserId) :
    List SockEffect :=
  match presLookup st toId with
  | some sid => [.emitCall sid "call-ended" senderId]
  | none => []

/-! ## Persisted chat store (models/Chat.js, models/Message.js)

A `Chat` document carries the fields of the Mongoose schema that the
controllers read or write (`latestMessage` and timestamps are never
consulted by the operations under study).  The store keeps documents
in insertion order; `find?`-style queries return the first match, as
Mongo's `findOne`/`findOneAndUpdate` do on an unindexed scan. -/

structure Chat where
  id : ChatId
  chatName : String
  isGroupChat : Bool
  users : List UserId
  groupAdmin : Option UserId
  about : String
  groupPic : String
  deriving Repr, DecidableEq

structure Db where
  /-- the `Chat` collection, insertion order -/
  chats : List Chat
  /-- ids present in the `User` collection -/
  userIds : List UserId
  /-- Embeds `Message` documents: (message id, chat id it references) -/
  messages : List (Nat × ChatId)
  /-- fresh-id source standing in for Mongo ObjectId generation -/
  nextChatId : ChatId
  deriving Repr, DecidableEq

/-- JS `String.prototype.trim`: strip whitespace from both ends
(executable stand-in for `.trim()`; `String.trim` of the library does
not reduce in the kernel). -/
def jsTrim (s : String) : String :=
  ⟨((s.data.dropWhile (fun ch => ch.isWhitespace)).reverse.dropWhile
      (fun ch => ch.isWhitespace)).reverse⟩

/-- Embeds `Chat.findById(chatId)`. -/
def findChat (db : Db) (cid : ChatId) : Option Chat :=
  db.chats.find? (fun c => c.id == cid)

/-- Replace the first element satisfying `q` by `c1`. -/
def replaceFirst (l : List Chat) (q : Chat → Bool) (c1 : Chat) : List Chat :=
  match l with
  | [] => []
  | x :: xs => if q x then c1 :: xs else x :: replaceFirst xs q c1

/-- Embeds `Chat.findOneAndUpdate(query, update, {new: true})`: atomically
update the first document matching `q` and return the new version;
match nothing, change nothing, return `none`. -/
def findOneAndUpdateChat (db : Db) (q : Chat → Bool) (u : Chat → Chat) :
    Option Chat × Db :=
  match db.chats.find? q with
  | none => (none, db)
  | some c =>
    let c1 := u c
    (some c1, { db with chats := replaceFirst db.chats q c1 })

/-- Result counts of `Chat.updateOne`. -/
structure UpdateResult where
  matchedCount : Nat
  modifiedCount : Nat
  deriving Repr, DecidableEq

/-- Embeds `$addToSet: { users: { $each: ids } }` on a user list. -/
def addToSetUsers (users : List UserId) (ids : List UserId) : List UserId :=
  ids.foldl (fun acc i => if acc.contains i then acc else acc ++ [i]) users

/-- JS `[...new Set(l)]`: deduplicate keeping first occurrences. -/
def jsDedup (l : List UserId) : List UserId :=
  l.foldl (fun acc x => if acc.contains x then acc else acc ++ [x]) []

/-- Failure kinds surfaced by the controllers (each corresponds to one
`res.status(...).json({success: false, ...})` site). -/
inductive ErrKind where
  | validation
  | notFound
  | notGroup
  | notAdmin
  | notMember
  | adminMustTransfer
  | selfTarget
  | serverErr
  deriving Repr, DecidableEq

/-- HTTP outcome of a mutation: `ok c` is a `success: true` response
(`c = none` on the populate-degraded path that returns no chat),
`err e` a `success: false` one. -/
inductive OpRes where
  | ok (c : Option Chat)
  | err (e : ErrKind)
  deriving Repr, DecidableEq

def OpRes.isOk : OpRes → Bool
  | .ok _ => true
  | .err _ => false

/-- Side effects of a controller in program order: persisted-store
writes and socket.io emissions. -/
inductive Action where
  /-- a store write committing (`create` / `updateOne` / `findOneAndUpdate`) -/
  | dbWrite (tag : String)
  /-- a store delete committing (`deleteOne` / `deleteMany`) -/
  | dbDelete (tag : String)
  /-- Embeds `io.to(room).emit(event, ...)`; rooms are named by chat ids and user ids -/
  | emit (event : String) (room : Nat)
  /-- forcing the sockets of `user` out of `room` (`fetchSockets` + `leave`) -/
  | forceLeave (room : Nat) (user : UserId)
  /-- forcing every socket out of `room` (deleteGroup) -/
  | clearRoom (room : Nat)
  deriving Repr, DecidableEq

/-- A controller run: HTTP result, store state after the run, and the
ordered effect trace. -/
structure OpOut where
  res : OpRes
  db : Db
  trace : List Action
  deriving Repr, DecidableEq

/-! ## Group mutation controllers (controllers/chatController.js)

Each controller is a pure function of the store and the request.
ObjectId *format* validation (`mongoose.Types.ObjectId.isValid`) and
the authentication guard (`req.user` present) are discharged by the
types; `populateChat` is display-data enrichment and is modelled as
the identity (its failure path still reports success in the source). -/

/-- Embeds `renameGroup` (chatController.js lines 409-516).  The admin check
is part of the `findOneAndUpdate` query itself; on a no-match, a
diagnostic re-read classifies the failure. -/
def renameGroup (db : Db) (requesterId : UserId) (chatId : ChatId)
    (chatName : String) : OpOut :=
  if jsTrim chatName == "" then ⟨.err .validation, db, []⟩
  else
    match findOneAndUpdateChat db
        (fun c => c.id == chatId && c.isGroupChat && c.groupAdmin == some requesterId)
        (fun c => { c with chatName := jsTrim chatName }) with
    | (some c1, db1) =>
      ⟨.ok (some c1), db1, [.dbWrite "rename", .emit "group updated" chatId]⟩
    | (none, _) =>
      match findChat db chatId with
      | none => ⟨.err .notFound, db, []⟩
      | some c =>
        if !c.isGroupChat then ⟨.err .notGroup, db, []⟩
        else if c.groupAdmin != some requesterId then ⟨.err .notAdmin, db, []⟩
        else ⟨.err .serverErr, db, []⟩

/-- Embeds `updateGroupAbout` (lines 521-625); same conditional-update shape,
empty `about` text is allowed. -/
def updateGroupAbout (db : Db) (requesterId : UserId) (chatId : ChatId)
    (about : String) : OpOut :=
  match findOneAndUpdateChat db
      (fun c => c.id == chatId && c.isGroupChat && c.groupAdmin == some requesterId)
      (fun c => { c with about := jsTrim about }) with
  | (some c1, db1) =>
    ⟨.ok (some c1), db1, [.dbWrite "updateAbout", .emit "group updated" chatId]⟩
  | (none, _) =>
    match findChat db chatId with
    | none => ⟨.err .notFound, db, []⟩
    | some c =>
      if !c.isGroupChat then ⟨.err .notGroup, db, []⟩
      else if c.groupAdmin != some requesterId then ⟨.err .notAdmin, db, []⟩
      else ⟨.err .serverErr, db, []⟩

/-- Embeds `updateGroupPic` (lines 1258-1368); an empty picture URL fails the
`!groupPic` validation. -/
def updateGroupPic (db : Db) (requesterId : UserId) (chatId : ChatId)
    (groupPic : String) : OpOut :=
  if groupPic == "" then ⟨.err .validation, db, []⟩
  else
    match findOneAndUpdateChat db
        (fun c => c.id == chatId && c.isGroupChat && c.groupAdmin == some requesterId)
        (fun c => { c with groupPic := groupPic }) with
    | (some c1, db1) =>
      ⟨.ok (some c1), db1, [.dbWrite "updatePic", .emit "group updated" chatId]⟩
    | (none, _) =>
      match findChat db chatId with
      | none => ⟨.err .notFound, db, []⟩
      | some c =>
        if !c.isGroupChat then ⟨.err .notGroup, db, []⟩
        else if c.groupAdmin != some requesterId then ⟨.err .notAdmin, db, []⟩
        else ⟨.err .serverErr, db, []⟩

/-- Embeds `transferAdmin` (lines 1061-1185): the query of the conditional
update requires the requester to be the current admin and the new
admin to be a member. -/
def transferAdmin (db : Db) (requesterId : UserId) (chatId : ChatId)
    (newAdminId : UserId) : OpOut :=
  if requesterId == newAdminId then ⟨.err .selfTarget, db, []⟩
  else
    match findOneAndUpdateChat db
        (fun c => c.id == chatId && c.isGroupChat && c.groupAdmin == some requesterId
          && c.users.contains newAdminId)
        (fun c => { c with groupAdmin := some newAdminId }) with
    | (some c1, db1) =>
      ⟨.ok (some c1), db1, [.dbWrite "transferAdmin", .emit "group updated" chatId]⟩
    | (none, _) =>
      match findChat db chatId with
      | none => ⟨.err .notFound, db, []⟩
      | some c =>
        if !c.isGroupChat then ⟨.err .notGroup, db, []⟩
        else if c.groupAdmin != some requesterId then ⟨.err .notAdmin, db, []⟩
        else if !c.users.contains newAdminId then ⟨.err .notMember, db, []⟩
        else ⟨.err .serverErr, db, []⟩

/-- Outcome of `addToGroup`'s read phase. -/
inductive AddCheck where
  | failed (e : ErrKind)
  | proceed (finalNewMemberIds : List UserId)
  deriving Repr, DecidableEq

/-- Embeds `addToGroup` read phase (lines 630-747): fetch the chat with the
admin condition, deduplicate the candidates, drop the admin and
existing members, and keep only ids present in the `User` collection. -/
def addToGroupCheck (db : Db) (requesterId : UserId) (chatId : ChatId)
    (userIds : List UserId) : AddCheck :=
  if userIds.isEmpty then .failed .validation
  else
    match db.chats.find?
        (fun c => c.id == chatId && c.isGroupChat && c.groupAdmin == some requesterId) with
    | none =>
      match findChat db chatId with
      | none => .failed .notFound
      | some c =>
        if !c.isGroupChat then .failed .notGroup
        else if c.groupAdmin != some requesterId then .failed .notAdmin
        else .failed .serverErr
    | some chat =>
      let uniqueIds := jsDedup userIds
      let potential := uniqueIds.filter
        (fun i => i != requesterId && !chat.users.contains i)
      if potential.isEmpty then .failed .validation
      else
        let finalIds := potential.filter (fun i => db.userIds.contains i)
        if finalIds.isEmpty then .failed .validation
        else .proceed finalIds

/-- Embeds `addToGroup` write phase (lines 750-753):
`Chat.updateOne({ _id: chatId }, { $addToSet: { users: { $each: ids } } })`.
The query conditions ONLY on the chat id. -/
def addToGroupWrite (db : Db) (chatId : ChatId) (ids : List UserId) :
    UpdateResult × Db :=
  match db.chats.find? (fun c => c.id == chatId) with
  | none => (⟨0, 0⟩, db)
  | some c =>
    let c1 := { c with users := addToSetUsers c.users ids }
    (⟨1, if c1.users == c.users then 0 else 1⟩,
     { db with chats := replaceFirst db.chats (fun x => x.id == chatId) c1 })

/-- Embeds `addToGroup` (lines 630-824): read phase, then the id-only
conditional write, then the broadcasts. -/
def addToGroup (db : Db) (requesterId : UserId) (chatId : ChatId)
    (userIds : List UserId) : OpOut :=
  match addToGroupCheck db requesterId chatId userIds with
  | .failed e => ⟨.err e, db, []⟩
  | .proceed ids =>
    let wr := addToGroupWrite db chatId ids
    if wr.1.modifiedCount == 0 && wr.1.matchedCount == 0 then
      ⟨.err .notFound, wr.2, []⟩
    else
      ⟨.ok (findChat wr.2 chatId), wr.2,
        .dbWrite "addMembers" :: .emit "group updated" chatId ::
          ids.map (fun i => .emit "added to group" i)⟩

/-- Outcome of `removeFromGroup`'s read/authorization phase. -/
inductive RemoveCheck where
  | failed (e : ErrKind)
  | proceed
  deriving Repr, DecidableEq

/-- Embeds `removeFromGroup` read phase (lines 865-942): fetch by id, then
JS-side authorization: requester must be admin or the target itself;
the target must be a member; an admin removing themselves with other
members present must transfer the role first. -/
def removeFromGroupCheck (db : Db) (requesterId : UserId) (chatId : ChatId)
    (userId : UserId) : RemoveCheck :=
  match findChat db chatId with
  | none => .failed .notFound
  | some chat =>
    if !chat.isGroupChat then .failed .notGroup
    else
      let isAdmin := chat.groupAdmin == some requesterId
      let isSelfRemoval := userId == requesterId
      if !isAdmin && !isSelfRemoval then .failed .notAdmin
      else if !chat.users.contains userId then .failed .notMember
      else if isAdmin && isSelfRemoval && chat.users.length > 1 then
        .failed .adminMustTransfer
      else .proceed

/-- Embeds `removeFromGroup` write phase (lines 949-953):
`Chat.findByIdAndUpdate(chatId, { $pull: { users: userId } }, {new: true})`.
The query conditions ONLY on the chat id. -/
def removeFromGroupWrite (db : Db) (chatId : ChatId) (userId : UserId) :
    Option Chat × Db :=
  findOneAndUpdateChat db (fun c => c.id == chatId)
    (fun c => { c with users := c.users.filter (fun u => u != userId) })

/-- Embeds `removeFromGroup` (lines 829-1056). -/
def removeFromGroup (db : Db) (requesterId : UserId) (chatId : ChatId)
    (userId : UserId) : OpOut :=
  match removeFromGroupCheck db requesterId chatId userId with
  | .failed e => ⟨.err e, db, []⟩
  | .proceed =>
    match removeFromGroupWrite db chatId userId with
    | (none, db1) => ⟨.err .notFound, db1, []⟩
    | (some c1, db1) =>
      ⟨.ok (some c1), db1,
        [.dbWrite "removeMember", .emit "removed from group" userId,
         .emit "user left group" chatId, .forceLeave chatId userId]⟩

/-- Embeds `deleteGroup` (lines 1373-1493): verify admin by a read, emit
`group deleted` and clear the room, and only THEN delete the chat
document and its messages. -/
def deleteGroup (db : Db) (requesterId : UserId) (chatId : ChatId) : OpOut :=
  match db.chats.find?
      (fun c => c.id == chatId && c.isGroupChat && c.groupAdmin == some requesterId) with
  | none =>
    match findChat db chatId with
    | none => ⟨.err .notFound, db, []⟩
    | some c =>
      if !c.isGroupChat then ⟨.err .notGroup, db, []⟩
      else if c.groupAdmin != some requesterId then ⟨.err .notAdmin, db, []⟩
      else ⟨.err .serverErr, db, []⟩
  | some _ =>
    let db1 : Db := { db with
      chats := db.chats.filter (fun c => c.id != chatId),
      messages := db.messages.filter (fun m => m.2 != chatId) }
    ⟨.ok none, db1,
      [.emit "group deleted" chatId, .clearRoom chatId,
       .dbDelete "chat", .dbDelete "messages"]⟩

/-- Result of `accessChat`: an existing conversation was returned, a
new one was created, or the request failed. -/
inductive AccessRes where
  | existing (c : Chat)
  | created (c : Chat)
  | err (e : ErrKind)
  deriving Repr, DecidableEq

structure AccessOut where
  res : AccessRes
  db : Db
  trace : List Action
  deriving Repr, DecidableEq

/-- Mongo query `{ isGroupChat: false, users: { $all: [a, b], $size: 2 } }`. -/
def isDirectPairChat (a b : UserId) (c : Chat) : Bool :=
  !c.isGroupChat && c.users.contains a && c.users.contains b
    && c.users.length == 2

/-- Embeds `accessChat` (lines 44-186): reject self-chat and unknown targets,
return the first existing 1-on-1 chat for the pair, otherwise create
one with `users: [requesterId, userId]` and notify the target's
personal room. -/
def accessChat (db : Db) (requesterId : UserId) (userId : UserId) : AccessOut :=
  if userId == requesterId then ⟨.err .selfTarget, db, []⟩
  else if !db.userIds.contains userId then ⟨.err .notFound, db, []⟩
  else
    match db.chats.find? (isDirectPairChat requesterId userId) with
    | some c => ⟨.existing c, db, []⟩
    | none =>
      let newChat : Chat :=
        { id := db.nextChatId, chatName := "sender", isGroupChat := false,
          users := [requesterId, userId], groupAdmin := none,
          about := "", groupPic := "" }
      let db1 : Db := { db with
        chats := db.chats ++ [newChat], nextChatId := db.nextChatId + 1 }
      ⟨.created newChat, db1, [.dbWrite "createChat", .emit "new_chat" userId]⟩

/-- Embeds `createGroupChat` (lines 266-404): validation only checks the name,
the RAW candidate list length (≥ 2 others) and the deduplicated total
(≥ 3 incl. creator); the `User` collection is never consulted. -/
def createGroupChat (db : Db) (creatorId : UserId) (chatName : String)
    (users : List UserId) (about : String) : OpOut :=
  if jsTrim chatName == "" || users.length < 2 then ⟨.err .validation, db, []⟩
  else
    let memberIds := jsDedup users
    let finalUsers := jsDedup (creatorId :: memberIds)
    if finalUsers.length < 3 then ⟨.err .validation, db, []⟩
    else
      let g : Chat :=
        { id := db.nextChatId, chatName := jsTrim chatName, isGroupChat := true,
          users := finalUsers, groupAdmin := some creatorId,
          about := jsTrim about, groupPic := "" }
      let db1 : Db := { db with
        chats := db.chats ++ [g], nextChatId := db.nextChatId + 1 }
      ⟨.ok (some g), db1,
        .dbWrite "createGroup" ::
          (finalUsers.filter (fun u => u != creatorId)).map
            (fun u => .emit "added to group" u)⟩

/-! ## Trace shape: store writes versus broadcasts -/

/-- Is the action a persisted-store modification? -/
def isDbAction : Action → Bool
  | .dbWrite _ => true
  | .dbDelete _ => true
  | _ => false

/-- Every store modification in the trace precedes every broadcast:
after the first `emit`, no store action occurs. -/
def writesBeforeEmits : List Action → Bool
  | [] => true
  | .emit _ _ :: rest => rest.all (fun a => !isDbAction a)
  | _ :: rest => writesBeforeEmits rest

/-! ## Concrete stores used by witnesses and counterexamples -/

/-- One group chat (id 1, members 10 and 11, admin 10), three users,
one message in the chat. -/
def sampleDb : Db :=
  { chats := [{ id := 1, chatName := "g", isGroupChat := true, users := [10, 11],
                groupAdmin := some 10, about := "", groupPic := "" }],
    userIds := [10, 11, 12], messages := [(0, 1)], nextChatId := 2 }

/-- A group whose admin (10) is the sole remaining member. -/
def soloAdminDb : Db :=
  { chats := [{ id := 1, chatName := "g", isGroupChat := true, users := [10],
                groupAdmin := some 10, about := "", groupPic := "" }],
    userIds := [10], messages := [], nextChatId := 2 }

/-- An empty chat store whose `User` collection holds only ids 1 and 2. -/
def twoUserDb : Db :=
  { chats := [], userIds := [1, 2], messages := [], nextChatId := 0 }

/-- A five-member group with admin 10. -/
def fiveMemberDb : Db :=
  { chats := [{ id := 1, chatName := "g", isGroupChat := true,
                users := [10, 11, 12, 13, 14],
                groupAdmin := some 10, about := "", groupPic := "" }],
    userIds := [10, 11, 12, 13, 14], messages := [], nextChatId := 2 }

end QuickTalk

namespace QuickTalk

/-! ## Lemmas about the conditional-update primitive -/

theorem findOneAndUpdateChat_some {db : Db} {q : Chat → Bool} {u : Chat → Chat}
    {c1 : Chat} {db1 : Db} (h : findOneAndUpdateChat db q u = (some c1, db1)) :
    ∃ c ∈ db.chats, q c = true ∧ c1 = u c := by
  unfold findOneAndUpdateChat at h
  cases hf : db.chats.find? q with
  | none =>
    rw [hf] at h
    exact absurd h (by simp)
  | some c =>
    rw [hf] at h
    simp only [Prod.mk.injEq, Option.some.injEq] at h
    exact ⟨c, List.mem_of_find?_eq_some hf, List.find?_some hf, h.1.symm⟩

theorem renameGroup_ok_admin {db : Db} {req : UserId} {cid : ChatId} {nm : String}
    (h : (renameGroup db req cid nm).res.isOk = true) :
    ∃ c ∈ db.chats, c.id = cid ∧ c.groupAdmin = some req := by
  unfold renameGroup at h
  split at h
  · simp [OpRes.isOk] at h
  · split at h
    next heq =>
      obtain ⟨c, hmem, hq, _⟩ := findOneAndUpdateChat_some heq
      simp only [Bool.and_eq_true, beq_iff_eq] at hq
      exact ⟨c, hmem, hq.1.1, hq.2⟩
    next heq =>
      split at h
      · simp [OpRes.isOk] at h
      · split at h
        · simp [OpRes.isOk] at h
        · split at h <;> simp [OpRes.isOk] at h

theorem updateGroupAbout_ok_admin {db : Db} {req : UserId} {cid : ChatId}
    {ab : String} (h : (updateGroupAbout db req cid ab).res.isOk = true) :
    ∃ c ∈ db.chats, c.id = cid ∧ c.groupAdmin = some req := by
  unfold updateGroupAbout at h
  split at h
  next heq =>
    obtain ⟨c, hmem, hq, _⟩ := findOneAndUpdateChat_some heq
    simp only [Bool.and_eq_true, beq_iff_eq] at hq
    exact ⟨c, hmem, hq.1.1, hq.2⟩
  next heq =>
    split at h
    · simp [OpRes.isOk] at h
    · split at h
      · simp [OpRes.isOk] at h
      · split at h <;> simp [OpRes.isOk] at h

theorem updateGroupPic_ok_admin {db : Db} {req : UserId} {cid : ChatId}
    {pic : String} (h : (updateGroupPic db req cid pic).res.isOk = true) :
    ∃ c ∈ db.chats, c.id = cid ∧ c.groupAdmin = some req := by
  unfold updateGroupPic at h
  split at h
  · simp [OpRes.isOk] at h
  · split at h
    next heq =>
      obtain ⟨c, hmem, hq, _⟩ := findOneAndUpdateChat_some heq
      simp only [Bool.and_eq_true, beq_iff_eq] at hq
      exact ⟨c, hmem, hq.1.1, hq.2⟩
    next heq =>
      split at h
      · simp [OpRes.isOk] at h
      · split at h
        · simp [OpRes.isOk] at h
        · split at h <;> simp [OpRes.isOk] at h

theorem transferAdmin_ok_admin {db : Db} {req : UserId} {cid : ChatId}
    {newAdmin : UserId} (h : (transferAdmin db req cid newAdmin).res.isOk = true) :
    ∃ c ∈ db.chats, c.id = cid ∧ c.groupAdmin = some req := by
  unfold transferAdmin at h
  split at h
  · simp [OpRes.isOk] at h
  · split at h
    next heq =>
      obtain ⟨c, hmem, hq, _⟩ := findOneAndUpdateChat_some heq
      simp only [Bool.and_eq_true, beq_iff_eq] at hq
      exact ⟨c, hmem, hq.1.1.1, hq.1.2⟩
    next heq =>
      split at h
      · simp [OpRes.isOk] at h
      · split at h
        · simp [OpRes.isOk] at h
        · split at h
          · simp [OpRes.isOk] at h
          · split at h <;> simp [OpRes.isOk] at h

theorem addToGroupWrite_matched_iff (db : Db) (cid : ChatId) (ids : List UserId) :
    (addToGroupWrite db cid ids).1.matchedCount = 1 ↔ ∃ c ∈ db.chats, c.id = cid := by
  unfold addToGroupWrite
  cases hf : db.chats.find? (fun c => c.id == cid) with
  | none =>
    simp only
    constructor
    · intro h
      exact absurd h (by decide)
    · rintro ⟨c, hmem, hcid⟩
      have := List.find?_eq_none.mp hf c hmem
      simp [hcid] at this
  | some c =>
    simp only
    constructor
    · intro _
      have hq := List.find?_some hf
      simp only [beq_iff_eq] at hq
      exact ⟨c, List.mem_of_find?_eq_some hf, hq⟩
    · intro _
      trivial

theorem removeFromGroupWrite_some_iff (db : Db) (cid : ChatId) (uid : UserId) :
    ((removeFromGroupWrite db cid uid).1.isSome = true) ↔ ∃ c ∈ db.chats, c.id = cid := by
  unfold removeFromGroupWrite findOneAndUpdateChat
  cases hf : db.chats.find? (fun c => c.id == cid) with
  | none =>
    simp only [Option.isSome_none]
    constructor
    · intro h
      exact absurd h (by decide)
    · rintro ⟨c, hmem, hcid⟩
      have := List.find?_eq_none.mp hf c hmem
      simp [hcid] at this
  | some c =>
    simp only [Option.isSome_some, true_iff]
    have hq := List.find?_some hf
    simp only [beq_iff_eq] at hq
    exact ⟨c, List.mem_of_find?_eq_some hf, hq⟩

end QuickTalk

namespace QuickTalk

/-! ## Helper lemmas -/

theorem find?_congrPred {α : Type} {p q : α → Bool} (l : List α)
    (h : ∀ x, p x = q x) : l.find? p = l.find? q := by
  have hpq : p = q := funext h
  rw [hpq]

theorem presLookup_presSet_self (st : Presence) (u : UserId) (s : SocketId) :
    presLookup (presSet st u s) u = some s := by
  unfold presSet presLookup
  by_cases hAny : st.any (fun p => p.1 == u) = true
  · simp only [hAny, if_true, List.find?_map]
    have hcongr : ∀ p : UserId × SocketId,
        ((fun p : UserId × SocketId => p.1 == u) ∘
          (fun p : UserId × SocketId => if p.1 == u then (u, s) else p)) p
          = (fun p : UserId × SocketId => p.1 == u) p := by
      intro p
      simp only [Function.comp_apply]
      by_cases hp : p.1 = u
      · simp [hp]
      · simp [hp]
    rw [find?_congrPred st hcongr]
    obtain ⟨x, hxmem, hx⟩ := List.any_eq_true.mp hAny
    cases hf : st.find? (fun p => p.1 == u) with
    | none =>
      exact absurd hx (List.find?_eq_none.mp hf x hxmem)
    | some y =>
      have hy := List.find?_some hf
      simp only [beq_iff_eq] at hy
      simp [hy]
  · simp only [hAny, if_false, List.find?_append]
    have hnone : st.find? (fun p => p.1 == u) = none := by
      rw [List.find?_eq_none]
      intro x hxmem hx
      exact hAny (List.any_eq_true.mpr ⟨x, hxmem, hx⟩)
    simp [hnone]

theorem presLookup_presSet_other (st : Presence) (u v : UserId) (s : SocketId)
    (h : v ≠ u) : presLookup (presSet st u s) v = presLookup st v := by
  unfold presSet presLookup
  by_cases hAny : st.any (fun p => p.1 == u) = true
  · simp only [hAny, if_true, List.find?_map]
    have hcongr : ∀ p : UserId × SocketId,
        ((fun p : UserId × SocketId => p.1 == v) ∘
          (fun p : UserId × SocketId => if p.1 == u then (u, s) else p)) p
          = (fun p : UserId × SocketId => p.1 == v) p := by
      intro p
      simp only [Function.comp_apply]
      by_cases hp : p.1 = u
      · simp [hp]
      · simp [hp]
    rw [find?_congrPred st hcongr]
    cases hf : st.find? (fun p => p.1 == v) with
    | none => simp
    | some y =>
      have hy := List.find?_some hf
      simp only [beq_iff_eq] at hy
      have hyu : ¬ y.1 = u := by
        rw [hy]
        exact h
      simp [hyu]
  · simp only [hAny, if_false, List.find?_append]
    have hlast : List.find? (fun p => p.1 == v) [(u, s)] = none := by
      simp only [List.find?_singleton]
      have huv : ¬ u = v := fun huv => h huv.symm
      simp [huv]
    simp [hlast]

/-! ## Claim C2 -/

/-- Claim C2 counterexample: registering a second live connection (id
20) for identity 0, which already has connection 10 registered and not
disconnected, REPLACES the stored connection instead of adding to a
set: `resolve 0` afterwards is `[20]` and no longer contains 10. -/
theorem C2_counterexample :
    resolveSet
      (setupHandler (setupHandler [] 10 (some ⟨some 0⟩)).1 20 (some ⟨some 0⟩)).1 0
      = [20] ∧
    10 ∉ resolveSet
      (setupHandler (setupHandler [] 10 (some ⟨some 0⟩)).1 20 (some ⟨some 0⟩)).1 0 := by
  decide

/-- Claim C2 (amended): the presence registry maps each identity to at
most ONE connection.  After a setup registering connection `sock` for
identity `u`, `resolve u` is exactly `[sock]` — a previously registered
connection is replaced, not kept alongside.  `isOnline u` is false
exactly when `resolve u` is empty. -/
theorem C2_presence_replaces (st : Presence) (sock : SocketId) (u : UserId)
    (ud : UserData) (h : ud.uid = some u) :
    resolveSet (setupHandler st sock (some ud)).1 u = [sock] ∧
    (∀ v, isOnline st v = false ↔ resolveSet st v = []) := by
  constructor
  · simp only [setupHandler, h, resolveSet]
    rw [presLookup_presSet_self]
    rfl
  · intro v
    unfold isOnline resolveSet
    cases presLookup st v with
    | none => simp
    | some s => simp

/-- Claim C2 witness. -/
theorem C2_presence_replaces_witness :
    resolveSet (setupHandler [(0, 10)] 20 (some ⟨some 0⟩)).1 0 = [20] :=
  (C2_presence_replaces [(0, 10)] 20 0 ⟨some 0⟩ rfl).1

/-! ## Claim C4 -/

/-- Claim C4 counterexample: a connection (socket 5) completes setup
with identity 0 and then with identity 1; afterwards the registry
holds socket 5 under BOTH identities — the claimed invariant (a
connection id appears under at most one identity) fails, and the
connection is still associated with the first identity. -/
theorem C4_counterexample :
    (0, 5) ∈ (setupHandler (setupHandler [] 5 (some ⟨some 0⟩)).1 5 (some ⟨some 1⟩)).1 ∧
    (1, 5) ∈ (setupHandler (setupHandler [] 5 (some ⟨some 0⟩)).1 5 (some ⟨some 1⟩)).1 ∧
    presLookup (setupHandler (setupHandler [] 5 (some ⟨some 0⟩)).1 5 (some ⟨some 1⟩)).1 0
      = some 5 ∧
    presLookup (setupHandler (setupHandler [] 5 (some ⟨some 0⟩)).1 5 (some ⟨some 1⟩)).1 1
      = some 5 := by
  decide

/-- Claim C4 (amended): setup never cleans up a previous association
of the same connection: if the registry maps identity `u1` to socket
`s` and the connection completes setup with a different identity `u2`,
the registry afterwards maps BOTH `u1` and `u2` to `s` — a connection
id can appear under several identities at once. -/
theorem C4_stale_identity_persists (st : Presence) (u1 u2 : UserId) (s : SocketId)
    (h1 : presLookup st u1 = some s) (h2 : u1 ≠ u2) :
    presLookup (setupHandler st s (some ⟨some u2⟩)).1 u1 = some s ∧
    presLookup (setupHandler st s (some ⟨some u2⟩)).1 u2 = some s := by
  constructor
  · show presLookup (presSet st u2 s) u1 = some s
    rw [presLookup_presSet_other st u2 u1 s h2]
    exact h1
  · exact presLookup_presSet_self st u2 s

/-- Claim C4 witness. -/
theorem C4_stale_identity_persists_witness :
    presLookup (setupHandler [(0, 5)] 5 (some ⟨some 1⟩)).1 0 = some 5 ∧
    presLookup (setupHandler [(0, 5)] 5 (some ⟨some 1⟩)).1 1 = some 5 :=
  C4_stale_identity_persists [(0, 5)] 0 1 5 rfl (by decide)

/-! ## Claim C9 -/

/-- Claim C9: for each of the four call-signaling kinds (call-user /
call-accepted / signal / call-ended), a target that resolves to no
online connection makes the relay drop the message with NO emission of
any kind (in particular none to the sender); an online target receives
the payload, augmented with the sender identity, as exactly one event
on its registered connection. -/
theorem C9_relay_fire_and_forget (st : Presence) (target : UserId)
    (fromId : UserId) (senderId : Option UserId) :
    (presLookup st target = none →
      callUserHandler st target fromId = [] ∧
      callAcceptedHandler st senderId target = [] ∧
      signalHandler st senderId target = [] ∧
      callEndedHandler st senderId target = []) ∧
    (∀ sid, presLookup st target = some sid →
      callUserHandler st target fromId
        = [.emitCall sid "call-incoming" (some fromId)] ∧
      callAcceptedHandler st senderId target
        = [.emitCall sid "call-accepted" senderId] ∧
      signalHandler st senderId target = [.emitCall sid "signal" senderId] ∧
      callEndedHandler st senderId target = [.emitCall sid "call-ended" senderId]) := by
  constructor
  · intro h
    simp [callUserHandler, callAcceptedHandler, signalHandler, callEndedHandler, h]
  · intro sid h
    simp [callUserHandler, callAcceptedHandler, signalHandler, callEndedHandler, h]

/-- Claim C9 witness. -/
theorem C9_relay_fire_and_forget_witness :
    callUserHandler [(0, 5)] 1 9 = [] ∧
    callUserHandler [(0, 5)] 0 9 = [.emitCall 5 "call-incoming" (some 9)] :=
  ⟨((C9_relay_fire_and_forget [(0, 5)] 1 9 none).1 rfl).1,
   ((C9_relay_fire_and_forget [(0, 5)] 0 9 none).2 5 rfl).1⟩

/-! ## Claim C10 -/

/-- Claim C10: a setup event whose payload is missing or has no
identity is silently ignored — the presence map is unchanged and no
effect of any kind (room join, `connected` ack, online-list broadcast)
is produced. -/
theorem C10_invalid_setup_ignored (st : Presence) (sock : SocketId)
    (payload : Option UserData)
    (h : payload = none ∨ ∃ ud, payload = some ud ∧ ud.uid = none) :
    setupHandler st sock payload = (st, []) := by
  rcases h with h | ⟨ud, hp, hu⟩
  · rw [h]
    rfl
  · rw [hp]
    simp [setupHandler, hu]

/-- Claim C10 witness. -/
theorem C10_invalid_setup_ignored_witness :
    setupHandler [(3, 4)] 7 none = ([(3, 4)], []) ∧
    setupHandler [(3, 4)] 7 (some ⟨none⟩) = ([(3, 4)], []) :=
  ⟨C10_invalid_setup_ignored [(3, 4)] 7 none (Or.inl rfl),
   C10_invalid_setup_ignored [(3, 4)] 7 (some ⟨none⟩) (Or.inr ⟨⟨none⟩, rfl, rfl⟩)⟩

end QuickTalk

namespace QuickTalk

/-! ## Claim C1 -/

/-- Claim C1 counterexample: for add-members the authorization is NOT
re-checked at write time.  On `sampleDb` (admin 10), the read phase of
add-members authorizes requester 10; an interleaved `transferAdmin`
moves the admin role to 11; yet the write phase, which conditions only
on the chat id, still commits on the post-transfer store and adds the
member under the stale authorization. -/
theorem C1_counterexample :
    addToGroupCheck sampleDb 10 1 [12] = .proceed [12] ∧
    findChat (transferAdmin sampleDb 10 1 11).db 1 =
      some { id := 1, chatName := "g", isGroupChat := true, users := [10, 11],
             groupAdmin := some 11, about := "", groupPic := "" } ∧
    (addToGroupWrite (transferAdmin sampleDb 10 1 11).db 1 [12]).1 = ⟨1, 1⟩ ∧
    findChat (addToGroupWrite (transferAdmin sampleDb 10 1 11).db 1 [12]).2 1 =
      some { id := 1, chatName := "g", isGroupChat := true, users := [10, 11, 12],
             groupAdmin := some 11, about := "", groupPic := "" } := by
  decide

/-- Claim C1 (amended): rename, update-about, update-picture and
transfer-admin bake the authorization into the conditional write
itself — if any of them reports success, the store they wrote to held
a chat with that id whose admin is the requester.  The write phases of
add-members and remove-member, by contrast, commit if and only if a
chat with the id exists, with no admin condition, so an interleaved
admin change between their initial read and their write can commit
under a stale authorization. -/
theorem C1_write_time_admin_check (db : Db) (req : UserId) (cid : ChatId)
    (nm ab pic : String) (newAdmin uid : UserId) (ids : List UserId) :
    ((renameGroup db req cid nm).res.isOk = true →
      ∃ c ∈ db.chats, c.id = cid ∧ c.groupAdmin = some req) ∧
    ((updateGroupAbout db req cid ab).res.isOk = true →
      ∃ c ∈ db.chats, c.id = cid ∧ c.groupAdmin = some req) ∧
    ((updateGroupPic db req cid pic).res.isOk = true →
      ∃ c ∈ db.chats, c.id = cid ∧ c.groupAdmin = some req) ∧
    ((transferAdmin db req cid newAdmin).res.isOk = true →
      ∃ c ∈ db.chats, c.id = cid ∧ c.groupAdmin = some req) ∧
    ((addToGroupWrite db cid ids).1.matchedCount = 1 ↔ ∃ c ∈ db.chats, c.id = cid) ∧
    (((removeFromGroupWrite db cid uid).1.isSome = true) ↔ ∃ c ∈ db.chats, c.id = cid) :=
  ⟨fun h => renameGroup_ok_admin h,
   fun h => updateGroupAbout_ok_admin h,
   fun h => updateGroupPic_ok_admin h,
   fun h => transferAdmin_ok_admin h,
   addToGroupWrite_matched_iff db cid ids,
   removeFromGroupWrite_some_iff db cid uid⟩

/-- Claim C1 witness. -/
theorem C1_write_time_admin_check_witness :
    ∃ c ∈ sampleDb.chats, c.id = 1 ∧ c.groupAdmin = some 10 :=
  (C1_write_time_admin_check sampleDb 10 1 "n" "a" "p" 11 11 [12]).1 (by decide)

end QuickTalk

namespace QuickTalk

/-! ## Claim C5 -/

theorem adminQuery_none {db : Db} {req : UserId} {cid : ChatId}
    (hAdmin : ∀ c ∈ db.chats, c.id = cid → c.groupAdmin ≠ some req) :
    db.chats.find?
      (fun c => c.id == cid && c.isGroupChat && c.groupAdmin == some req) = none := by
  rw [List.find?_eq_none]
  intro c hmem hq
  simp only [Bool.and_eq_true, beq_iff_eq] at hq
  exact hAdmin c hmem hq.1.1 hq.2

theorem adminQueryT_none {db : Db} {req : UserId} {cid : ChatId} {newAdmin : UserId}
    (hAdmin : ∀ c ∈ db.chats, c.id = cid → c.groupAdmin ≠ some req) :
    db.chats.find?
      (fun c => c.id == cid && c.isGroupChat && c.groupAdmin == some req
        && c.users.contains newAdmin) = none := by
  rw [List.find?_eq_none]
  intro c hmem hq
  simp only [Bool.and_eq_true, beq_iff_eq] at hq
  exact hAdmin c hmem hq.1.1.1 hq.1.2

theorem renameGroup_unauthorized {db : Db} {req : UserId} {cid : ChatId} {nm : String}
    (hAdmin : ∀ c ∈ db.chats, c.id = cid → c.groupAdmin ≠ some req) :
    (renameGroup db req cid nm).res.isOk = false ∧ (renameGroup db req cid nm).db = db := by
  have hnone : findOneAndUpdateChat db
      (fun c => c.id == cid && c.isGroupChat && c.groupAdmin == some req)
      (fun c => { c with chatName := jsTrim nm }) = (none, db) := by
    unfold findOneAndUpdateChat
    rw [adminQuery_none hAdmin]
  unfold renameGroup
  split
  · exact ⟨rfl, rfl⟩
  · rw [hnone]
    split
    · rename_i heq
      simp at heq
    · split
      · exact ⟨rfl, rfl⟩
      · split
        · exact ⟨rfl, rfl⟩
        · split
          · exact ⟨rfl, rfl⟩
          · exact ⟨rfl, rfl⟩

theorem updateGroupAbout_unauthorized {db : Db} {req : UserId} {cid : ChatId}
    {ab : String}
    (hAdmin : ∀ c ∈ db.chats, c.id = cid → c.groupAdmin ≠ some req) :
    (updateGroupAbout db req cid ab).res.isOk = false ∧
    (updateGroupAbout db req cid ab).db = db := by
  have hnone : findOneAndUpdateChat db
      (fun c => c.id == cid && c.isGroupChat && c.groupAdmin == some req)
      (fun c => { c with about := jsTrim ab }) = (none, db) := by
    unfold findOneAndUpdateChat
    rw [adminQuery_none hAdmin]
  unfold updateGroupAbout
  rw [hnone]
  split
  · rename_i heq
    simp at heq
  · split
    · exact ⟨rfl, rfl⟩
    · split
      · exact ⟨rfl, rfl⟩
      · split
        · exact ⟨rfl, rfl⟩
        · exact ⟨rfl, rfl⟩

theorem updateGroupPic_unauthorized {db : Db} {req : UserId} {cid : ChatId}
    {pic : String}
    (hAdmin : ∀ c ∈ db.chats, c.id = cid → c.groupAdmin ≠ some req) :
    (updateGroupPic db req cid pic).res.isOk = false ∧
    (updateGroupPic db req cid pic).db = db := by
  have hnone : findOneAndUpdateChat db
      (fun c => c.id == cid && c.isGroupChat && c.groupAdmin == some req)
      (fun c => { c with groupPic := pic }) = (none, db) := by
    unfold findOneAndUpdateChat
    rw [adminQuery_none hAdmin]
  unfold updateGroupPic
  split
  · exact ⟨rfl, rfl⟩
  · rw [hnone]
    split
    · rename_i heq
      simp at heq
    · split
      · exact ⟨rfl, rfl⟩
      · split
        · exact ⟨rfl, rfl⟩
        · split
          · exact ⟨rfl, rfl⟩
          · exact ⟨rfl, rfl⟩

theorem transferAdmin_unauthorized {db : Db} {req : UserId} {cid : ChatId}
    {newAdmin : UserId}
    (hAdmin : ∀ c ∈ db.chats, c.id = cid → c.groupAdmin ≠ some req) :
    (transferAdmin db req cid newAdmin).res.isOk = false ∧
    (transferAdmin db req cid newAdmin).db = db := by
  have hnone : findOneAndUpdateChat db
      (fun c => c.id == cid && c.isGroupChat && c.groupAdmin == some req
        && c.users.contains newAdmin)
      (fun c => { c with groupAdmin := some newAdmin }) = (none, db) := by
    unfold findOneAndUpdateChat
    rw [adminQueryT_none hAdmin]
  unfold transferAdmin
  split
  · exact ⟨rfl, rfl⟩
  · rw [hnone]
    split
    · rename_i heq
      simp at heq
    · split
      · exact ⟨rfl, rfl⟩
      · split
        · exact ⟨rfl, rfl⟩
        · split
          · exact ⟨rfl, rfl⟩
          · split
            · exact ⟨rfl, rfl⟩
            · exact ⟨rfl, rfl⟩

theorem addToGroupCheck_unauthorized {db : Db} {req : UserId} {cid : ChatId}
    {userIds : List UserId}
    (hAdmin : ∀ c ∈ db.chats, c.id = cid → c.groupAdmin ≠ some req) :
    ∃ e, addToGroupCheck db req cid userIds = .failed e := by
  unfold addToGroupCheck
  split
  · exact ⟨_, rfl⟩
  · rw [adminQuery_none hAdmin]
    split
    · split
      · exact ⟨_, rfl⟩
      · split
        · exact ⟨_, rfl⟩
        · split
          · exact ⟨_, rfl⟩
          · exact ⟨_, rfl⟩
    · rename_i heq
      simp at heq

theorem addToGroup_unauthorized {db : Db} {req : UserId} {cid : ChatId}
    {userIds : List UserId}
    (hAdmin : ∀ c ∈ db.chats, c.id = cid → c.groupAdmin ≠ some req) :
    (addToGroup db req cid userIds).res.isOk = false ∧
    (addToGroup db req cid userIds).db = db := by
  obtain ⟨e, he⟩ := @addToGroupCheck_unauthorized db req cid userIds hAdmin
  unfold addToGroup
  rw [he]
  exact ⟨rfl, rfl⟩

theorem removeFromGroup_unauthorized {db : Db} {req : UserId} {cid : ChatId}
    {uid : UserId}
    (hAdmin : ∀ c ∈ db.chats, c.id = cid → c.groupAdmin ≠ some req)
    (hTarget : req ≠ uid) :
    (removeFromGroup db req cid uid).res.isOk = false ∧
    (removeFromGroup db req cid uid).db = db := by
  have hcheck : ∃ e, removeFromGroupCheck db req cid uid = .failed e := by
    cases hf : findChat db cid with
    | none =>
      unfold removeFromGroupCheck
      rw [hf]
      exact ⟨_, rfl⟩
    | some chat =>
      have hmem : chat ∈ db.chats := List.mem_of_find?_eq_some hf
      have hcid : chat.id = cid := by
        have := List.find?_some hf
        simpa using this
      have hadm : (chat.groupAdmin == some req) = false := by
        rw [beq_eq_false_iff_ne]
        exact hAdmin chat hmem hcid
      have hself : (uid == req) = false := by
        rw [beq_eq_false_iff_ne]
        exact fun h => hTarget h.symm
      unfold removeFromGroupCheck
      rw [hf]
      dsimp only
      split
      · exact ⟨_, rfl⟩
      · split
        · exact ⟨_, rfl⟩
        · rename_i hcond
          rw [hadm, hself] at hcond
          simp at hcond
  obtain ⟨e, he⟩ := hcheck
  unfold removeFromGroup
  rw [he]
  exact ⟨rfl, rfl⟩

/-- Claim C5: a rename / update-about / update-picture / add-members /
remove-member / transfer-admin request by an identity that is not the
conversation's admin (and, for remove-member, not the self-removal
target) always fails and leaves the persisted store completely
unchanged. -/
theorem C5_unauthorized_never_mutates (db : Db) (req : UserId) (cid : ChatId)
    (nm ab pic : String) (newAdmin target : UserId) (ids : List UserId)
    (hAdmin : ∀ c ∈ db.chats, c.id = cid → c.groupAdmin ≠ some req)
    (hTarget : req ≠ target) :
    ((renameGroup db req cid nm).res.isOk = false ∧
      (renameGroup db req cid nm).db = db) ∧
    ((updateGroupAbout db req cid ab).res.isOk = false ∧
      (updateGroupAbout db req cid ab).db = db) ∧
    ((updateGroupPic db req cid pic).res.isOk = false ∧
      (updateGroupPic db req cid pic).db = db) ∧
    ((addToGroup db req cid ids).res.isOk = false ∧
      (addToGroup db req cid ids).db = db) ∧
    ((removeFromGroup db req cid target).res.isOk = false ∧
      (removeFromGroup db req cid target).db = db) ∧
    ((transferAdmin db req cid newAdmin).res.isOk = false ∧
      (transferAdmin db req cid newAdmin).db = db) :=
  ⟨renameGroup_unauthorized hAdmin,
   updateGroupAbout_unauthorized hAdmin,
   updateGroupPic_unauthorized hAdmin,
   addToGroup_unauthorized hAdmin,
   removeFromGroup_unauthorized hAdmin hTarget,
   transferAdmin_unauthorized hAdmin⟩

/-- Claim C5 witness: requester 11 is not the admin of chat 1 in
`sampleDb` (admin is 10) and targets user 10. -/
theorem C5_unauthorized_never_mutates_witness :
    (renameGroup sampleDb 11 1 "x").res.isOk = false ∧
    (renameGroup sampleDb 11 1 "x").db = sampleDb :=
  (C5_unauthorized_never_mutates sampleDb 11 1 "x" "a" "p" 12 10 [12]
    (by decide) (by decide)).1

end QuickTalk

namespace QuickTalk

/-! ## Claim C6 -/

theorem find?_replaceFirst {l : List Chat} {q : Chat → Bool} {c c1 : Chat}
    (h : l.find? q = some c) (h1 : q c1 = true) :
    (replaceFirst l q c1).find? q = some c1 := by
  induction l with
  | nil => simp at h
  | cons x xs ih =>
    by_cases hx : q x = true
    · rw [replaceFirst]
      simp only [hx, if_true]
      exact List.find?_cons_of_pos _ h1
    · rw [replaceFirst]
      rw [if_neg hx]
      rw [List.find?_cons_of_neg _ hx]
      rw [List.find?_cons_of_neg _ hx] at h
      exact ih h

/-- Claim C6: in a group whose admin requests their own removal, the
request is rejected with the transfer-admin-required failure (and the
store is untouched) whenever other members remain, and succeeds with a
member-less conversation exactly when the admin is the sole remaining
member. -/
theorem C6_admin_self_removal (db : Db) (cid : ChatId) (a : UserId) (c : Chat)
    (hfind : findChat db cid = some c) (hg : c.isGroupChat = true)
    (hadmin : c.groupAdmin = some a) (hmem : a ∈ c.users) :
    (1 < c.users.length →
      (removeFromGroup db a cid a).res = .err .adminMustTransfer ∧
      (removeFromGroup db a cid a).db = db) ∧
    (c.users.length = 1 →
      (removeFromGroup db a cid a).res = .ok (some { c with users := [] }) ∧
      findChat (removeFromGroup db a cid a).db cid = some { c with users := [] }) := by
  have hfind1 : db.chats.find? (fun x => x.id == cid) = some c := hfind
  have hcont : c.users.contains a = true := List.elem_eq_true_of_mem hmem
  constructor
  · intro hlen
    have hcheck : removeFromGroupCheck db a cid a = .failed .adminMustTransfer := by
      unfold removeFromGroupCheck
      rw [hfind]
      dsimp only
      simp [hg, hadmin, hcont, hmem, hlen]
    unfold removeFromGroup
    rw [hcheck]
    exact ⟨rfl, rfl⟩
  · intro hlen
    obtain ⟨x, hx⟩ := List.length_eq_one.mp hlen
    have hax : a = x := by
      rw [hx] at hmem
      simpa using hmem
    subst hax
    have hone : ¬ (1 < c.users.length) := by omega
    have hcheck : removeFromGroupCheck db a cid a = .proceed := by
      unfold removeFromGroupCheck
      rw [hfind]
      dsimp only
      simp [hg, hadmin, hcont, hmem, hone]
    have hq1 : ((({ c with users := [] } : Chat).id == cid)) = true := by
      have := List.find?_some hfind1
      simpa using this
    have hw : removeFromGroupWrite db cid a =
        (some { c with users := [] },
         { db with chats :=
            replaceFirst db.chats (fun x => x.id == cid) { c with users := [] } }) := by
      unfold removeFromGroupWrite findOneAndUpdateChat
      rw [hfind1]
      simp [hx]
    unfold removeFromGroup
    rw [hcheck]
    dsimp only
    rw [hw]
    exact ⟨rfl, find?_replaceFirst hfind1 hq1⟩

/-- Claim C6 witness: self-removal by the admin of a five-member group
is rejected with the transfer requirement; self-removal by the admin
of a one-member group succeeds and empties the membership. -/
theorem C6_admin_self_removal_witness :
    (removeFromGroup fiveMemberDb 10 1 10).res = .err .adminMustTransfer ∧
    (removeFromGroup soloAdminDb 10 1 10).res =
      .ok (some { id := 1, chatName := "g", isGroupChat := true, users := [],
                  groupAdmin := some 10, about := "", groupPic := "" }) :=
  ⟨((C6_admin_self_removal fiveMemberDb 1 10
      { id := 1, chatName := "g", isGroupChat := true, users := [10, 11, 12, 13, 14],
        groupAdmin := some 10, about := "", groupPic := "" }
      (by decide) rfl rfl (by decide)).1 (by decide)).1,
   ((C6_admin_self_removal soloAdminDb 1 10
      { id := 1, chatName := "g", isGroupChat := true, users := [10],
        groupAdmin := some 10, about := "", groupPic := "" }
      (by decide) rfl rfl (by decide)).2 rfl).1⟩

end QuickTalk

namespace QuickTalk

/-! ## Claim C7 -/

theorem isDirectPairChat_comm (a b : UserId) (x : Chat) :
    isDirectPairChat b a x = isDirectPairChat a b x := by
  unfold isDirectPairChat
  simp only [Bool.and_assoc, Bool.and_left_comm]

theorem countP_congrPred {α : Type} {p q : α → Bool} (l : List α)
    (h : ∀ x, p x = q x) : l.countP p = l.countP q := by
  have hpq : p = q := funext h
  rw [hpq]

/-- Claim C7: create-direct is idempotent per unordered identity pair —
after a call by `a` for `b` creates conversation `c`, a second call in
either direction returns `c` as already existing and leaves the store
untouched, and any store holding at most one direct conversation per
unordered pair still does so after the call. -/
theorem C7_direct_chat_idempotent (db : Db) (a b : UserId) (c : Chat)
    (hab : a ≠ b) (hau : db.userIds.contains a = true)
    (hbu : db.userIds.contains b = true)
    (hc : (accessChat db a b).res = .created c) :
    ((accessChat (accessChat db a b).db a b).res = .existing c ∧
     (accessChat (accessChat db a b).db a b).db = (accessChat db a b).db) ∧
    ((accessChat (accessChat db a b).db b a).res = .existing c ∧
     (accessChat (accessChat db a b).db b a).db = (accessChat db a b).db) ∧
    (∀ x y, x ≠ y →
      db.chats.countP (isDirectPairChat x y) ≤ 1 →
      (accessChat db a b).db.chats.countP (isDirectPairChat x y) ≤ 1) := by
  have hba : (b == a) = false := by
    rw [beq_eq_false_iff_ne]
    exact fun h => hab h.symm
  have hab2 : (a == b) = false := by
    rw [beq_eq_false_iff_ne]
    exact hab
  have hau2 : a ∈ db.userIds := by simpa using hau
  have hbu2 : b ∈ db.userIds := by simpa using hbu
  cases hfind : db.chats.find? (isDirectPairChat a b) with
  | some c0 =>
    exfalso
    unfold accessChat at hc
    simp [hba, hbu2, hfind] at hc
  | none =>
    set nc : Chat := { id := db.nextChatId, chatName := "sender", isGroupChat := false,
                       users := [a, b], groupAdmin := none, about := "", groupPic := "" }
      with hncdef
    have hacc : accessChat db a b =
        ⟨.created nc,
         { db with chats := db.chats ++ [nc], nextChatId := db.nextChatId + 1 },
         [.dbWrite "createChat", .emit "new_chat" b]⟩ := by
      unfold accessChat
      simp [hba, hbu2, hfind, hncdef]
    have hcnc : c = nc := by
      rw [hacc] at hc
      dsimp only at hc
      injection hc with h
      exact h.symm
    have hmatch : isDirectPairChat a b nc = true := by
      rw [hncdef]
      simp [isDirectPairChat]
    have hfind2 : (db.chats ++ [nc]).find? (isDirectPairChat a b) = some nc := by
      rw [List.find?_append, hfind]
      simp [List.find?_singleton, hmatch]
    have hfind2s : (db.chats ++ [nc]).find? (isDirectPairChat b a) = some nc := by
      rw [find?_congrPred _ (isDirectPairChat_comm a b)]
      exact hfind2
    refine ⟨⟨?_, ?_⟩, ⟨?_, ?_⟩, ?_⟩
    · rw [hacc, hcnc]
      dsimp only
      unfold accessChat
      simp [hba, hbu2, hfind2]
    · rw [hacc]
      dsimp only
      unfold accessChat
      simp [hba, hbu2, hfind2]
    · rw [hacc, hcnc]
      dsimp only
      unfold accessChat
      simp [hab2, hau2, hfind2s]
    · rw [hacc]
      dsimp only
      unfold accessChat
      simp [hab2, hau2, hfind2s]
    · intro x y hxy hcount
      rw [hacc]
      dsimp only
      rw [List.countP_append]
      by_cases hxync : isDirectPairChat x y nc = true
      · have hxync2 := hxync
        rw [hncdef] at hxync2
        unfold isDirectPairChat at hxync2
        simp only [Bool.and_eq_true] at hxync2
        have hx : x = a ∨ x = b := by
          have hxmem := hxync2.1.1.2
          simpa using hxmem
        have hy : y = a ∨ y = b := by
          have hymem := hxync2.1.2
          simpa using hymem
        have hzero : db.chats.countP (isDirectPairChat x y) = 0 := by
          have hnone : db.chats.countP (isDirectPairChat a b) = 0 := by
            rw [List.countP_eq_zero]
            intro z hz
            exact List.find?_eq_none.mp hfind z hz
          rcases hx with hx | hx <;> rcases hy with hy | hy
          · exact absurd (hx.trans hy.symm) hxy
          · rw [hx, hy]
            exact hnone
          · rw [hx, hy]
            rw [countP_congrPred _ (isDirectPairChat_comm a b)]
            exact hnone
          · exact absurd (hx.trans hy.symm) hxy
        rw [hzero]
        simp [List.countP_cons, hxync]
      · have hzc : List.countP (isDirectPairChat x y) [nc] = 0 := by
          simp [List.countP_cons, hxync]
        rw [hzc]
        simpa using hcount

/-- Claim C7 witness: users 10 and 12 of `sampleDb` have no direct
conversation; the first call creates one, the second returns it. -/
theorem C7_direct_chat_idempotent_witness :
    (accessChat (accessChat sampleDb 10 12).db 10 12).res =
      .existing { id := 2, chatName := "sender", isGroupChat := false,
                  users := [10, 12], groupAdmin := none, about := "", groupPic := "" } :=
  ((C7_direct_chat_idempotent sampleDb 10 12
      { id := 2, chatName := "sender", isGroupChat := false,
        users := [10, 12], groupAdmin := none, about := "", groupPic := "" }
      (by decide) (by decide) (by decide) (by decide)).1).1

end QuickTalk

namespace QuickTalk

/-! ## Claim C3 -/

theorem all_not_db_map_emit (e : String) (l : List Nat) :
    (l.map (fun i => Action.emit e i)).all (fun a => !isDbAction a) = true := by
  induction l with
  | nil => rfl
  | cons x xs ih =>
    rw [List.map_cons, List.all_cons, ih]
    rfl

theorem writesBeforeEmits_emit_list (e : String) (l : List Nat) :
    writesBeforeEmits (l.map (fun i => Action.emit e i)) = true := by
  cases l with
  | nil => rfl
  | cons x xs => exact all_not_db_map_emit e xs

theorem renameGroup_trace_ok (db : Db) (req : UserId) (cid : ChatId) (nm : String) :
    writesBeforeEmits (renameGroup db req cid nm).trace = true := by
  unfold renameGroup
  split
  · rfl
  · split
    · rfl
    · split
      · rfl
      · split
        · rfl
        · split
          · rfl
          · rfl

theorem updateGroupAbout_trace_ok (db : Db) (req : UserId) (cid : ChatId)
    (ab : String) :
    writesBeforeEmits (updateGroupAbout db req cid ab).trace = true := by
  unfold updateGroupAbout
  split
  · rfl
  · split
    · rfl
    · split
      · rfl
      · split
        · rfl
        · rfl

theorem updateGroupPic_trace_ok (db : Db) (req : UserId) (cid : ChatId)
    (pic : String) :
    writesBeforeEmits (updateGroupPic db req cid pic).trace = true := by
  unfold updateGroupPic
  split
  · rfl
  · split
    · rfl
    · split
      · rfl
      · split
        · rfl
        · split
          · rfl
          · rfl

theorem transferAdmin_trace_ok (db : Db) (req : UserId) (cid : ChatId)
    (newAdmin : UserId) :
    writesBeforeEmits (transferAdmin db req cid newAdmin).trace = true := by
  unfold transferAdmin
  split
  · rfl
  · split
    · rfl
    · split
      · rfl
      · split
        · rfl
        · split
          · rfl
          · split
            · rfl
            · rfl

theorem accessChat_trace_ok (db : Db) (req target : UserId) :
    writesBeforeEmits (accessChat db req target).trace = true := by
  unfold accessChat
  split
  · rfl
  · split
    · rfl
    · split
      · rfl
      · rfl

theorem createGroupChat_trace_ok (db : Db) (creator : UserId) (nm : String)
    (mems : List UserId) (ab : String) :
    writesBeforeEmits (createGroupChat db creator nm mems ab).trace = true := by
  unfold createGroupChat
  split
  · rfl
  · dsimp only
    split
    · rfl
    · exact writesBeforeEmits_emit_list "added to group" _

theorem addToGroup_trace_ok (db : Db) (req : UserId) (cid : ChatId)
    (ids : List UserId) :
    writesBeforeEmits (addToGroup db req cid ids).trace = true := by
  unfold addToGroup
  split
  · rfl
  · dsimp only
    split
    · rfl
    · exact all_not_db_map_emit "added to group" _

theorem removeFromGroup_trace_ok (db : Db) (req : UserId) (cid : ChatId)
    (uid : UserId) :
    writesBeforeEmits (removeFromGroup db req cid uid).trace = true := by
  unfold removeFromGroup
  split
  · rfl
  · split
    · rfl
    · rfl

theorem deleteGroup_emits_first (db : Db) (req : UserId) (cid : ChatId)
    (h : (deleteGroup db req cid).res.isOk = true) :
    (deleteGroup db req cid).trace.head? = some (.emit "group deleted" cid) := by
  cases hf : db.chats.find?
      (fun c => c.id == cid && c.isGroupChat && c.groupAdmin == some req) with
  | none =>
    exfalso
    unfold deleteGroup at h
    rw [hf] at h
    split at h
    · split at h
      · simp [OpRes.isOk] at h
      · split at h
        · simp [OpRes.isOk] at h
        · split at h <;> simp [OpRes.isOk] at h
    · rename_i heq
      simp at heq
  | some c =>
    unfold deleteGroup
    rw [hf]
    rfl

/-- Claim C3 counterexample: `deleteGroup` broadcasts `group deleted`
(and clears the room) BEFORE the conversation and its messages are
deleted from the store — on `sampleDb` the successful deletion's trace
starts with the emission and the store deletes come after, so a client
can observe the event while a read would still return the conversation. -/
theorem C3_counterexample :
    (deleteGroup sampleDb 10 1).res.isOk = true ∧
    (deleteGroup sampleDb 10 1).trace =
      [.emit "group deleted" 1, .clearRoom 1, .dbDelete "chat", .dbDelete "messages"] ∧
    writesBeforeEmits (deleteGroup sampleDb 10 1).trace = false := by
  decide

/-- Claim C3 (amended): for create-direct, create-group, rename,
update-about, update-picture, add-members, remove-member and
transfer-admin every broadcast is emitted strictly after the persisted
write committed (all store actions precede all emissions in the effect
trace); `deleteGroup` is the exception — on success its trace BEGINS
with the `group deleted` broadcast, before the store deletion. -/
theorem C3_broadcast_order (db : Db) (req target : UserId) (cid : ChatId)
    (nm ab pic : String) (newAdmin uid : UserId) (ids mems : List UserId) :
    writesBeforeEmits (accessChat db req target).trace = true ∧
    writesBeforeEmits (createGroupChat db req nm mems ab).trace = true ∧
    writesBeforeEmits (renameGroup db req cid nm).trace = true ∧
    writesBeforeEmits (updateGroupAbout db req cid ab).trace = true ∧
    writesBeforeEmits (updateGroupPic db req cid pic).trace = true ∧
    writesBeforeEmits (addToGroup db req cid ids).trace = true ∧
    writesBeforeEmits (removeFromGroup db req cid uid).trace = true ∧
    writesBeforeEmits (transferAdmin db req cid newAdmin).trace = true ∧
    ((deleteGroup db req cid).res.isOk = true →
      (deleteGroup db req cid).trace.head? = some (.emit "group deleted" cid)) :=
  ⟨accessChat_trace_ok db req target,
   createGroupChat_trace_ok db req nm mems ab,
   renameGroup_trace_ok db req cid nm,
   updateGroupAbout_trace_ok db req cid ab,
   updateGroupPic_trace_ok db req cid pic,
   addToGroup_trace_ok db req cid ids,
   removeFromGroup_trace_ok db req cid uid,
   transferAdmin_trace_ok db req cid newAdmin,
   deleteGroup_emits_first db req cid⟩

/-- Claim C3 witness. -/
theorem C3_broadcast_order_witness :
    (deleteGroup sampleDb 10 1).trace.head? = some (.emit "group deleted" 1) :=
  (C3_broadcast_order sampleDb 10 11 1 "n" "a" "p" 11 11 [12] [11, 12]).2.2.2.2.2.2.2.2
    (by decide)

end QuickTalk

namespace QuickTalk

/-! ## Claim C8 -/

/-- Claim C8 counterexample: `createGroupChat` never consults the
`User` collection.  With a store whose users are exactly {1, 2},
creator 1 requesting members [7, 2] succeeds and the created group
CONTAINS identity 7, which does not exist in the user store. -/
theorem C8_counterexample :
    (createGroupChat twoUserDb 1 "g" [7, 2] "").res =
      .ok (some { id := 0, chatName := "g", isGroupChat := true, users := [1, 7, 2],
                  groupAdmin := some 1, about := "", groupPic := "" }) ∧
    7 ∉ twoUserDb.userIds ∧
    7 ∈ ([1, 7, 2] : List UserId) := by
  decide

/-- Claim C8 (amended): create-group succeeds exactly when the name is
non-empty after trimming, the raw candidate list has at least two
entries, and creator plus deduplicated candidates total at least three
distinct identities; existence in the user store is NOT checked, and on
success the stored member list is exactly creator followed by the
deduplicated candidates, whether or not those identities exist. -/
theorem C8_create_group_validation (db : Db) (creator : UserId) (nm : String)
    (users : List UserId) (ab : String) :
    ((createGroupChat db creator nm users ab).res.isOk = true ↔
      (jsTrim nm ≠ "" ∧ 2 ≤ users.length ∧
        3 ≤ (jsDedup (creator :: jsDedup users)).length)) ∧
    (∀ g, (createGroupChat db creator nm users ab).res = .ok (some g) →
      g.users = jsDedup (creator :: jsDedup users)) := by
  constructor
  · constructor
    · intro h
      unfold createGroupChat at h
      split at h
      · simp [OpRes.isOk] at h
      · rename_i h1
        dsimp only at h
        split at h
        · simp [OpRes.isOk] at h
        · rename_i h2
          simp only [Bool.or_eq_true, not_or, beq_iff_eq, decide_eq_true_eq] at h1
          push_neg at h1
          refine ⟨h1.1, ?_, ?_⟩
          · omega
          · omega
    · rintro ⟨hnm, hlen, hdedup⟩
      unfold createGroupChat
      have hc1 : ¬((jsTrim nm == "" || decide (users.length < 2)) = true) := by
        simp only [Bool.or_eq_true, beq_iff_eq, decide_eq_true_eq, not_or]
        exact ⟨hnm, by omega⟩
      rw [if_neg hc1]
      dsimp only
      rw [if_neg (by omega : ¬ (jsDedup (creator :: jsDedup users)).length < 3)]
      rfl
  · intro g hg
    unfold createGroupChat at hg
    split at hg
    · simp at hg
    · dsimp only at hg
      split at hg
      · simp at hg
      · simp only [OpRes.ok.injEq, Option.some.injEq] at hg
        rw [← hg]

/-- Claim C8 witness. -/
theorem C8_create_group_validation_witness :
    (createGroupChat twoUserDb 1 "g" [7, 2] "").res.isOk = true :=
  ((C8_create_group_validation twoUserDb 1 "g" [7, 2] "").1).2 (by decide)

end QuickTalk
